import Mathlib

/-!
Verification of the nirv query engine core (parser / planner / dispatcher /
executor) against its natural-language specification.

The Rust source is shallowly embedded: pure structs become Lean structures,
`HashMap` registries become association lists (insertion order stands in for
the map's unspecified iteration order), `u64`/`usize` become `Nat`, `i64`
becomes `Int`, and `f64` becomes `Rat` (so arithmetic on cost parameters and
float cell values is exact; NaN is outside the model).  Fallible Rust
functions returning `Result` become `Except NirvError`; the one place the
code can index out of bounds is modelled with an explicit `panicked` outcome.
-/

namespace Nirv

/-- Connector types (src/utils/types.rs `ConnectorType`). -/
inductive ConnectorType
  | mock
  | postgreSQL
  | mySQL
  | sqlite
  | file
  | rest
  | llm
  | custom (s : String)
  deriving DecidableEq, Repr

/-- Data source specification in a query (src/utils/types.rs `DataSource`). -/
structure DataSource where
  object_type : String
  identifier : String
  «alias» : Option String
  deriving DecidableEq, Repr

/-- Column specification in projections (src/utils/types.rs `Column`). -/
structure Column where
  name : String
  «alias» : Option String
  source : Option String
  deriving DecidableEq, Repr

/-- Predicate operators (src/utils/types.rs `PredicateOperator`). -/
inductive PredicateOperator
  | equal | notEqual | greaterThan | greaterThanOrEqual | lessThan
  | lessThanOrEqual | like | inList | isNull | isNotNull
  deriving DecidableEq, Repr

/-- Values in predicates (src/utils/types.rs `PredicateValue`; `f64` is
modelled as `Rat`). -/
inductive PredicateValue
  | string (s : String)
  | number (q : Rat)
  | integer (n : Int)
  | boolean (b : Bool)
  | null
  | list (vs : List PredicateValue)

/-- WHERE clause predicate (src/utils/types.rs `Predicate`). -/
structure Predicate where
  column : String
  operator : PredicateOperator
  value : PredicateValue

/-- Sort direction (src/utils/types.rs `OrderDirection`). -/
inductive OrderDirection
  | ascending
  | descending
  deriving DecidableEq, Repr

/-- Column ordering specification (src/utils/types.rs `OrderColumn`). -/
structure OrderColumn where
  column : String
  direction : OrderDirection
  deriving DecidableEq, Repr

/-- ORDER BY specification (src/utils/types.rs `OrderBy`). -/
structure OrderBy where
  columns : List OrderColumn
  deriving DecidableEq, Repr

/-- Types of JOINs (src/utils/types.rs `JoinType`). -/
inductive JoinType
  | inner | left | right | full
  deriving DecidableEq, Repr

/-- JOIN condition (src/utils/types.rs `JoinCondition`). -/
structure JoinCondition where
  left_column : String
  right_column : String
  deriving DecidableEq, Repr

/-- JOIN specification (src/utils/types.rs `Join`). -/
structure Join where
  join_type : JoinType
  left_source : String
  right_source : String
  on_condition : List JoinCondition
  deriving DecidableEq, Repr

/-- Types of SQL operations (src/utils/types.rs `QueryOperation`). -/
inductive QueryOperation
  | select | insert | update | delete
  deriving DecidableEq, Repr

/-- Internal representation of a parsed SQL query
(src/utils/types.rs `InternalQuery`). -/
structure InternalQuery where
  operation : QueryOperation
  sources : List DataSource
  projections : List Column
  predicates : List Predicate
  joins : List Join
  ordering : Option OrderBy
  limit : Option Nat

/-- `InternalQuery::new`: an empty query for the given operation. -/
def InternalQuery.new (op : QueryOperation) : InternalQuery :=
  ⟨op, [], [], [], [], none, none⟩

/-- Individual cell values (src/utils/types.rs `Value`; `f64` modelled as
`Rat`, `Vec<u8>` as `List Nat`). -/
inductive Value
  | text (s : String)
  | integer (n : Int)
  | float (q : Rat)
  | boolean (b : Bool)
  | date (s : String)
  | dateTime (s : String)
  | json (s : String)
  | binary (bytes : List Nat)
  | null
  deriving DecidableEq, Repr

/-- Supported data types (src/utils/types.rs `DataType`). -/
inductive DataType
  | dtText | dtInteger | dtFloat | dtBoolean | dtDate | dtDateTime
  | dtJson | dtBinary
  deriving DecidableEq, Repr

/-- Metadata for result columns (src/utils/types.rs `ColumnMetadata`). -/
structure ColumnMetadata where
  name : String
  data_type : DataType
  nullable : Bool
  deriving DecidableEq, Repr

/-- A row of data in query results (src/utils/types.rs `Row`). -/
structure Row where
  values : List Value
  deriving DecidableEq, Repr

/-- `Row::get`: value by column index. -/
def Row.get (r : Row) (i : Nat) : Option Value :=
  r.values.get? i

/-- Query execution result (src/utils/types.rs `QueryResult`;
`execution_time : Duration` modelled in milliseconds). -/
structure QueryResult where
  columns : List ColumnMetadata
  rows : List Row
  affected_rows : Option Nat
  execution_time : Nat
  deriving DecidableEq, Repr

/-- `QueryResult::new`: an empty result. -/
def QueryResult.new : QueryResult := ⟨[], [], none, 0⟩

/-- Query parsing errors (src/utils/error.rs `QueryParsingError`; only the
variants the embedded code constructs). -/
inductive QueryParsingError
  | invalidSyntax (msg : String)
  | unsupportedFeature (msg : String)
  | invalidSourceFormat (msg : String)
  | missingSource
  deriving DecidableEq, Repr

/-- Dispatcher errors (src/utils/error.rs `DispatcherError`). -/
inductive DispatcherError
  | unregisteredObjectType (msg : String)
  | noSuitableConnector
  | routingFailed (msg : String)
  | crossConnectorJoinUnsupported
  | registrationFailed (msg : String)
  deriving DecidableEq, Repr

/-- Top-level error type (src/utils/error.rs `NirvError`; only the variants
the embedded code constructs). -/
inductive NirvError
  | queryParsing (e : QueryParsingError)
  | dispatcher (e : DispatcherError)
  | internal (msg : String)
  deriving DecidableEq, Repr

/-- Connector query envelope (src/utils/types.rs `ConnectorQuery`;
`connection_params : HashMap<String,String>` as an association list). -/
structure ConnectorQuery where
  connector_type : ConnectorType
  query : InternalQuery
  connection_params : List (String × String)

/-- Capabilities reported by a connector
(src/connectors/connector_trait.rs `ConnectorCapabilities`). -/
structure TraitCapabilities where
  supports_joins : Bool
  supports_aggregations : Bool
  supports_subqueries : Bool
  supports_transactions : Bool
  supports_schema_introspection : Bool
  max_concurrent_queries : Option Nat
  deriving DecidableEq, Repr

/-- Capabilities recorded by the dispatcher for routing decisions
(src/engine/dispatcher.rs `ConnectorCapabilities`). -/
structure DispatchCapabilities where
  supports_joins : Bool
  supports_aggregations : Bool
  supports_subqueries : Bool
  max_concurrent_queries : Option Nat
  deriving DecidableEq, Repr

/-- A connector instance (src/connectors/connector_trait.rs trait
`Connector`): only the members the query path reads are modelled —
its type tag, its capabilities and its `execute_query` behaviour. -/
structure Connector where
  connector_type : ConnectorType
  capabilities : TraitCapabilities
  execute_query : ConnectorQuery → Except NirvError QueryResult

instance : Inhabited DataSource := ⟨⟨"", "", none⟩⟩

/-- Lookup in an association list modelling `HashMap::get`. -/
def lookupKey {α : Type} : List (String × α) → String → Option α
  | [], _ => none
  | p :: rest, k => if p.1 = k then some p.2 else lookupKey rest k

/-- Membership test modelling `HashMap::contains_key`. -/
def containsKey {α : Type} : List (String × α) → String → Bool
  | [], _ => false
  | p :: rest, k => p.1 == k || containsKey rest k

end Nirv

namespace Nirv

/-! Query planner (src/engine/query_planner.rs). -/

/-- Execution plan node (src/engine/query_planner.rs `PlanNode`). -/
inductive PlanNode
  | tableScan (source : DataSource) (projections : List Column)
      (predicates : List Predicate)
  | limit (count : Nat) (input : PlanNode)
  | sort (order_by : OrderBy) (input : PlanNode)
  | projection (columns : List Column) (input : PlanNode)

/-- Execution plan (src/engine/query_planner.rs `ExecutionPlan`;
`estimated_cost : f64` modelled as `Rat`). -/
structure ExecutionPlan where
  nodes : List PlanNode
  estimated_cost : Rat

/-- `ExecutionPlan::root_node`: the last node of the plan. -/
def ExecutionPlan.root_node (p : ExecutionPlan) : Option PlanNode :=
  p.nodes.getLast?

/-- Cost parameters of `DefaultQueryPlanner` (f64 fields as `Rat`). -/
structure DefaultQueryPlanner where
  base_scan_cost : Rat
  predicate_cost_multiplier : Rat
  sort_cost : Rat
  limit_cost : Rat
  deriving DecidableEq, Repr

/-- `DefaultQueryPlanner::new()`: default cost parameters 1.0 / 0.1 / 0.5 / 0.1. -/
def DefaultQueryPlanner.new : DefaultQueryPlanner :=
  ⟨1, 1/10, 1/2, 1/10⟩

/-- `DefaultQueryPlanner::validate_query`: exactly one source is required. -/
def validate_query (q : InternalQuery) : Except NirvError Unit :=
  if q.sources.isEmpty then
    .error (.internal "No data sources found in query")
  else if q.sources.length > 1 then
    .error (.internal "Multi-source queries not supported in MVP")
  else
    .ok ()

/-- `DefaultQueryPlanner::create_table_scan_node` (only called after
validation, so `sources[0]` is modelled by `headI`). -/
def create_table_scan_node (q : InternalQuery) : PlanNode :=
  let source := q.sources.headI
  let projections :=
    if q.projections.isEmpty then
      [⟨"*", none, source.alias⟩]
    else
      q.projections
  .tableScan source projections q.predicates

/-- `DefaultQueryPlanner::add_limit_node`: wrap the current root in a Limit
node when the query has a limit, adding `limit_cost`. -/
def add_limit_node (pl : DefaultQueryPlanner) (plan : ExecutionPlan)
    (q : InternalQuery) : ExecutionPlan :=
  match q.limit with
  | some l =>
      match plan.nodes.getLast? with
      | some last_node =>
          ⟨plan.nodes ++ [.limit l last_node],
            plan.estimated_cost + pl.limit_cost⟩
      | none => plan
  | none => plan

/-- `DefaultQueryPlanner::add_sort_node`: wrap the current root in a Sort
node when the query has an ordering, adding `sort_cost`. -/
def add_sort_node (pl : DefaultQueryPlanner) (plan : ExecutionPlan)
    (q : InternalQuery) : ExecutionPlan :=
  match q.ordering with
  | some ob =>
      match plan.nodes.getLast? with
      | some last_node =>
          ⟨plan.nodes ++ [.sort ob last_node],
            plan.estimated_cost + pl.sort_cost⟩
      | none => plan
  | none => plan

/-- `DefaultQueryPlanner::calculate_cost`. -/
def calculate_cost (pl : DefaultQueryPlanner) (q : InternalQuery) : Rat :=
  pl.base_scan_cost
    + q.predicates.length * pl.predicate_cost_multiplier
    + (if q.ordering.isSome then pl.sort_cost else 0)
    + (if q.limit.isSome then pl.limit_cost else 0)

/-- `DefaultQueryPlanner::create_execution_plan`. -/
def create_execution_plan (pl : DefaultQueryPlanner) (q : InternalQuery) :
    Except NirvError ExecutionPlan :=
  match validate_query q with
  | .error e => .error e
  | .ok () =>
      let plan : ExecutionPlan := ⟨[create_table_scan_node q], calculate_cost pl q⟩
      let plan := add_sort_node pl plan q
      let plan := add_limit_node pl plan q
      .ok plan

end Nirv

namespace Nirv

/-! Claims C3, C4, C5: the planner. -/

/-- `DefaultQueryPlanner::estimate_cost`: validation followed by the
single-counted cost formula. -/
def estimate_cost (pl : DefaultQueryPlanner) (q : InternalQuery) :
    Except NirvError Rat :=
  match validate_query q with
  | .error e => .error e
  | .ok () => .ok (calculate_cost pl q)

/-- Shape of a single-source plan: leaf TableScan with predicates and
projections (wildcard default), then an optional Sort wrapping the scan,
then an optional Limit wrapping the current root. -/
def planShape (q : InternalQuery) (s : DataSource) (p : ExecutionPlan) : Prop :=
  let projs := if q.projections.isEmpty then [⟨"*", none, s.alias⟩] else q.projections
  let scan := PlanNode.tableScan s projs q.predicates
  p.nodes.head? = some scan ∧
  (q.ordering = none → q.limit = none → p.nodes = [scan]) ∧
  (∀ ob, q.ordering = some ob → q.limit = none →
    p.nodes = [scan, .sort ob scan] ∧ p.root_node = some (.sort ob scan)) ∧
  (∀ l, q.ordering = none → q.limit = some l →
    p.nodes = [scan, .limit l scan] ∧ p.root_node = some (.limit l scan)) ∧
  (∀ ob l, q.ordering = some ob → q.limit = some l →
    p.nodes = [scan, .sort ob scan, .limit l (.sort ob scan)] ∧
    p.root_node = some (.limit l (.sort ob scan)))

/-- C3: for every query with exactly one source, the produced plan starts
with a TableScan carrying that source, the predicates and the projections
(a lone wildcard column when the projection list is empty); a Sort node
wrapping the scan is added when an ordering is present; a Limit node
wrapping the current root is added when a limit is present; with both, the
root is the Limit whose input is the Sort. -/
theorem create_execution_plan_shape (pl : DefaultQueryPlanner)
    (q : InternalQuery) (s : DataSource) (h : q.sources = [s]) :
    ∃ p, create_execution_plan pl q = .ok p ∧ planShape q s p := by
  have hv : validate_query q = .ok () := by
    simp [validate_query, h]
  have hscan : create_table_scan_node q =
      .tableScan s
        (if q.projections.isEmpty then [⟨"*", none, s.alias⟩] else q.projections)
        q.predicates := by
    simp [create_table_scan_node, h]
  rcases ho : q.ordering with _ | ob <;> rcases hl : q.limit with _ | l
  · refine ⟨⟨[create_table_scan_node q], calculate_cost pl q⟩, ?_, ?_⟩
    · simp [create_execution_plan, hv, add_sort_node, add_limit_node, ho, hl]
    · simp [planShape, hscan, ho, hl, ExecutionPlan.root_node]
  · refine ⟨⟨[create_table_scan_node q, .limit l (create_table_scan_node q)],
        calculate_cost pl q + pl.limit_cost⟩, ?_, ?_⟩
    · simp [create_execution_plan, hv, add_sort_node, add_limit_node, ho, hl]
    · simp [planShape, hscan, ho, hl, ExecutionPlan.root_node]
  · refine ⟨⟨[create_table_scan_node q, .sort ob (create_table_scan_node q)],
        calculate_cost pl q + pl.sort_cost⟩, ?_, ?_⟩
    · simp [create_execution_plan, hv, add_sort_node, add_limit_node, ho, hl]
    · simp [planShape, hscan, ho, hl, ExecutionPlan.root_node]
  · refine ⟨⟨[create_table_scan_node q, .sort ob (create_table_scan_node q),
        .limit l (.sort ob (create_table_scan_node q))],
        calculate_cost pl q + pl.sort_cost + pl.limit_cost⟩, ?_, ?_⟩
    · simp [create_execution_plan, hv, add_sort_node, add_limit_node, ho, hl]
    · simp [planShape, hscan, ho, hl, ExecutionPlan.root_node]

/-- Witness for C3 at a concrete query with ordering and limit. -/
theorem create_execution_plan_shape_witness :
    ({ InternalQuery.new .select with
        sources := [⟨"mock", "users", none⟩],
        ordering := some ⟨[⟨"name", .ascending⟩]⟩,
        limit := some 5 } : InternalQuery).sources = [⟨"mock", "users", none⟩] ∧
    ∃ p, create_execution_plan DefaultQueryPlanner.new
        { InternalQuery.new .select with
          sources := [⟨"mock", "users", none⟩],
          ordering := some ⟨[⟨"name", .ascending⟩]⟩,
          limit := some 5 } = .ok p ∧
      planShape
        { InternalQuery.new .select with
          sources := [⟨"mock", "users", none⟩],
          ordering := some ⟨[⟨"name", .ascending⟩]⟩,
          limit := some 5 } ⟨"mock", "users", none⟩ p :=
  ⟨rfl, create_execution_plan_shape DefaultQueryPlanner.new _ _ rfl⟩

/-- Single-source query with only a LIMIT clause, used to exhibit the cost
double-counting. -/
def limitOnlyQuery : InternalQuery :=
  { InternalQuery.new .select with
    sources := [⟨"mock", "users", none⟩],
    limit := some 10 }

/-- C4 (refuting the stated cost formula): on a single-source query with a
limit and no predicates or ordering, the default planner's plan carries
estimated cost 1.2 — `calculate_cost` already adds `limit_cost` and
`add_limit_node` adds it a second time — while the single-counted formula
(which `estimate_cost` returns, and which the claim and the repository's own
test `test_query_planner_with_limit` state) gives 1.1. -/
theorem create_execution_plan_double_counts_limit_cost :
    ∃ p, create_execution_plan DefaultQueryPlanner.new limitOnlyQuery = .ok p
      ∧ p.estimated_cost = 6/5
      ∧ calculate_cost DefaultQueryPlanner.new limitOnlyQuery = 11/10
      ∧ estimate_cost DefaultQueryPlanner.new limitOnlyQuery = .ok (11/10)
      ∧ p.estimated_cost ≠ calculate_cost DefaultQueryPlanner.new limitOnlyQuery := by
  refine ⟨_, rfl, by norm_num [create_execution_plan, validate_query,
    limitOnlyQuery, InternalQuery.new, calculate_cost, DefaultQueryPlanner.new,
    add_sort_node, add_limit_node, create_table_scan_node], ?_, ?_, ?_⟩
  · norm_num [calculate_cost, limitOnlyQuery, InternalQuery.new,
      DefaultQueryPlanner.new]
  · norm_num [estimate_cost, validate_query, calculate_cost, limitOnlyQuery,
      InternalQuery.new, DefaultQueryPlanner.new]
  · norm_num [create_execution_plan, validate_query, limitOnlyQuery,
      InternalQuery.new, calculate_cost, DefaultQueryPlanner.new,
      add_sort_node, add_limit_node, create_table_scan_node]

/-- C5: planner validation — zero sources and multiple sources each fail
with their own planning-stage internal fault (never a parser-family error),
and exactly one source passes validation. -/
theorem create_execution_plan_validation (pl : DefaultQueryPlanner)
    (q : InternalQuery) :
    (q.sources = [] →
      create_execution_plan pl q = .error (.internal "No data sources found in query") ∧
      ∀ e, create_execution_plan pl q ≠ .error (.queryParsing e)) ∧
    (1 < q.sources.length →
      create_execution_plan pl q = .error (.internal "Multi-source queries not supported in MVP") ∧
      ∀ e, create_execution_plan pl q ≠ .error (.queryParsing e)) ∧
    ("No data sources found in query" ≠ ("Multi-source queries not supported in MVP" : String)) ∧
    (q.sources.length = 1 → ∃ p, create_execution_plan pl q = .ok p) := by
  refine ⟨fun h0 => ?_, fun h2 => ?_, by decide, fun h1 => ?_⟩
  · have : create_execution_plan pl q = .error (.internal "No data sources found in query") := by
      simp [create_execution_plan, validate_query, h0]
    exact ⟨this, fun e => by simp [this]⟩
  · have : create_execution_plan pl q = .error (.internal "Multi-source queries not supported in MVP") := by
      have hne : ¬ q.sources.isEmpty := by
        cases hs : q.sources with
        | nil => rw [hs] at h2; simp at h2
        | cons a l => simp [hs]
      simp [create_execution_plan, validate_query, hne, h2]
    exact ⟨this, fun e => by simp [this]⟩
  · cases hs : q.sources with
    | nil => rw [hs] at h1; simp at h1
    | cons a l =>
      cases l with
      | cons b l2 => rw [hs] at h1; simp at h1
      | nil =>
        obtain ⟨p, hp, -⟩ := create_execution_plan_shape pl q a hs
        exact ⟨p, hp⟩

/-- Witness for C5 at concrete zero-, two- and one-source queries. -/
theorem create_execution_plan_validation_witness :
    (create_execution_plan DefaultQueryPlanner.new (InternalQuery.new .select)
      = .error (.internal "No data sources found in query")) ∧
    (create_execution_plan DefaultQueryPlanner.new
      { InternalQuery.new .select with
        sources := [⟨"mock", "a", none⟩, ⟨"mock", "b", none⟩] }
      = .error (.internal "Multi-source queries not supported in MVP")) ∧
    (∃ p, create_execution_plan DefaultQueryPlanner.new limitOnlyQuery = .ok p) :=
  ⟨((create_execution_plan_validation DefaultQueryPlanner.new
      (InternalQuery.new .select)).1 rfl).1,
   ((create_execution_plan_validation DefaultQueryPlanner.new
      { InternalQuery.new .select with
        sources := [⟨"mock", "a", none⟩, ⟨"mock", "b", none⟩] }).2.1 (by decide)).1,
   (create_execution_plan_validation DefaultQueryPlanner.new
      limitOnlyQuery).2.2.2 rfl⟩

end Nirv

namespace Nirv

/-! Decimal rendering of natural numbers.  The dispatcher synthesizes
connector names with `format!` on a `usize`, which prints base-10 digits;
the embedding uses core `Nat.repr` for this.  `natChars` is a
recursion-friendly reformulation used only in proofs, connected by the
bridge lemma `repr_data_eq_natChars`. -/

/-- Decimal digit characters of `n`, most significant first. -/
def natChars (n : Nat) : List Char :=
  if _h : n < 10 then [Nat.digitChar n]
  else natChars (n / 10) ++ [Nat.digitChar (n % 10)]
termination_by n
decreasing_by exact Nat.div_lt_self (by omega) (by omega)

theorem natChars_ne_nil (n : Nat) : natChars n ≠ [] := by
  rw [natChars]
  split
  · simp
  · simp

theorem natChars_length_pos (n : Nat) : 0 < (natChars n).length :=
  List.length_pos.mpr (natChars_ne_nil n)

theorem digitChar_isDigit : ∀ m < 10, (Nat.digitChar m).isDigit = true := by
  decide

theorem digitChar_inj_lt : ∀ m < 10, ∀ n < 10,
    Nat.digitChar m = Nat.digitChar n → m = n := by
  decide

theorem mem_natChars_isDigit (n : Nat) : ∀ c ∈ natChars n, c.isDigit = true := by
  induction n using Nat.strong_induction_on with
  | _ n ih =>
    intro c hc
    rw [natChars] at hc
    split at hc
    · next h =>
      simp only [List.mem_singleton] at hc
      subst hc
      exact digitChar_isDigit n h
    · next h =>
      rw [List.mem_append] at hc
      rcases hc with hc | hc
      · exact ih (n / 10) (Nat.div_lt_self (by omega) (by omega)) c hc
      · simp only [List.mem_singleton] at hc
        subst hc
        exact digitChar_isDigit _ (Nat.mod_lt _ (by omega))

theorem natChars_lt {n : Nat} (h : n < 10) : natChars n = [Nat.digitChar n] := by
  rw [natChars]
  rw [dif_pos h]

theorem natChars_ge {n : Nat} (h : 10 ≤ n) :
    natChars n = natChars (n / 10) ++ [Nat.digitChar (n % 10)] := by
  rw [natChars]
  rw [dif_neg (Nat.not_lt.mpr h)]

theorem natChars_inj : ∀ m n : Nat, natChars m = natChars n → m = n := by
  intro m
  induction m using Nat.strong_induction_on with
  | _ m ih =>
    intro n h
    by_cases hm : m < 10 <;> by_cases hn : n < 10
    · rw [natChars_lt hm, natChars_lt hn] at h
      simp only [List.cons.injEq, and_true] at h
      exact digitChar_inj_lt m hm n hn h
    · rw [natChars_lt hm, natChars_ge (Nat.not_lt.mp hn)] at h
      cases hx : natChars (n / 10) with
      | nil => exact absurd hx (natChars_ne_nil _)
      | cons c cs =>
        rw [hx] at h
        simp at h
    · rw [natChars_ge (Nat.not_lt.mp hm), natChars_lt hn] at h
      cases hx : natChars (m / 10) with
      | nil => exact absurd hx (natChars_ne_nil _)
      | cons c cs =>
        rw [hx] at h
        simp at h
    · rw [natChars_ge (Nat.not_lt.mp hm), natChars_ge (Nat.not_lt.mp hn)] at h
      have h' := congrArg List.reverse h
      simp only [List.reverse_append, List.reverse_cons, List.reverse_nil,
        List.nil_append, List.singleton_append, List.cons.injEq] at h'
      obtain ⟨hd, htl⟩ := h'
      have hdiv : m / 10 = n / 10 := by
        apply ih (m / 10) (Nat.div_lt_self (by omega) (by omega))
        have := congrArg List.reverse htl
        simpa using this
      have hmod : m % 10 = n % 10 :=
        digitChar_inj_lt _ (Nat.mod_lt _ (by omega)) _ (Nat.mod_lt _ (by omega)) hd
      omega

theorem underscore_not_digit : ('_').isDigit = false := by decide

/-- Splitting a character list at an underscore that follows an all-digit
prefix is unambiguous. -/
theorem digit_prefix_underscore_split :
    ∀ (a b xs ys : List Char), (∀ c ∈ a, c.isDigit = true) →
      (∀ c ∈ b, c.isDigit = true) →
      a ++ '_' :: xs = b ++ '_' :: ys → a = b ∧ xs = ys := by
  intro a
  induction a with
  | nil =>
    intro b xs ys _ hb h
    cases b with
    | nil => simpa using h
    | cons d b' =>
      simp only [List.nil_append, List.cons_append, List.cons.injEq] at h
      have hd : d.isDigit = true := hb d (by simp)
      rw [← h.1] at hd
      rw [underscore_not_digit] at hd
      cases hd
  | cons c a' iha =>
    intro b xs ys ha hb h
    cases b with
    | nil =>
      simp only [List.cons_append, List.nil_append, List.cons.injEq] at h
      have hc : c.isDigit = true := ha c (by simp)
      rw [h.1, underscore_not_digit] at hc
      cases hc
    | cons d b' =>
      simp only [List.cons_append, List.cons.injEq] at h
      obtain ⟨rfl, h2⟩ := h
      obtain ⟨h3, h4⟩ := iha b' xs ys (fun x hx => ha x (by simp [hx]))
        (fun x hx => hb x (by simp [hx])) h2
      exact ⟨by rw [h3], h4⟩

/-- Bridge: core `Nat.toDigitsCore` at base 10 with sufficient fuel
produces exactly `natChars`. -/
theorem toDigitsCore_eq_natChars (fuel : Nat) :
    ∀ (n : Nat) (l : List Char), n < fuel →
      Nat.toDigitsCore 10 fuel n l = natChars n ++ l := by
  induction fuel with
  | zero => omega
  | succ f ihf =>
    intro n l hn
    rw [Nat.toDigitsCore.eq_2]
    by_cases h10 : n / 10 = 0
    · have hlt : n < 10 := by omega
      rw [if_pos h10, natChars_lt hlt, Nat.mod_eq_of_lt hlt]
      rfl
    · have hge : 10 ≤ n := by
        by_contra hc
        exact h10 (Nat.div_eq_of_lt (by omega))
      rw [if_neg h10]
      have hfuel : n / 10 < f := by
        have h2 : n / 10 < n := Nat.div_lt_self (by omega) (by omega)
        omega
      rw [ihf (n / 10) _ hfuel, natChars_ge hge]
      simp [List.append_assoc]

/-- Bridge: the characters of `Nat.repr n` are `natChars n`. -/
theorem repr_data_eq_natChars (n : Nat) : (Nat.repr n).data = natChars n := by
  show (Nat.toDigits 10 n).asString.data = natChars n
  rw [Nat.toDigits, toDigitsCore_eq_natChars (n + 1) n [] (by omega)]
  simp [List.asString]

end Nirv

namespace Nirv

/-! Dispatcher (src/engine/dispatcher.rs) and the connector registry
(src/connectors/connector_trait.rs `ConnectorRegistry`). -/

/-- The connector name the dispatcher synthesizes in `register_connector`:
`format!` of the object type, an underscore and the connector registry's
current size. -/
def synthName (t : String) (k : Nat) : String :=
  t ++ "_" ++ Nat.repr k

theorem synthName_data (t : String) (k : Nat) :
    (synthName t k).data = t.data ++ '_' :: natChars k := by
  show (t ++ "_" ++ Nat.repr k).data = _
  rw [String.data_append, String.data_append, repr_data_eq_natChars]
  rw [List.append_assoc]
  rfl

/-- Two synthesized names agree only when the embedded ordinals agree. -/
theorem synthName_ordinal_inj {t u : String} {j k : Nat}
    (h : synthName t j = synthName u k) : j = k := by
  have hd := congrArg String.data h
  rw [synthName_data, synthName_data] at hd
  have hr := congrArg List.reverse hd
  simp only [List.reverse_append, List.reverse_cons] at hr
  have hsplit := digit_prefix_underscore_split
    (natChars j).reverse (natChars k).reverse t.data.reverse u.data.reverse
    (fun c hc => mem_natChars_isDigit j c (List.mem_reverse.mp hc))
    (fun c hc => mem_natChars_isDigit k c (List.mem_reverse.mp hc))
    (by simpa using hr)
  exact natChars_inj j k (List.reverse_injective hsplit.1)

theorem natChars_eq_zero_chars {k : Nat} (h : natChars k = ['0']) : k = 0 := by
  by_cases hk : k < 10
  · rw [natChars_lt hk] at h
    simp only [List.cons.injEq, and_true] at h
    have key : ∀ m < 10, Nat.digitChar m = '0' → m = 0 := by decide
    exact key k hk h
  · rw [natChars_ge (Nat.not_lt.mp hk)] at h
    cases hx : natChars (k / 10) with
    | nil => exact absurd hx (natChars_ne_nil _)
    | cons c cs =>
      rw [hx] at h
      simp at h

theorem synthName_ne_base (t : String) (k : Nat) : synthName t k ≠ t := by
  intro h
  have hd := congrArg String.data h
  rw [synthName_data] at hd
  have := congrArg List.length hd
  simp at this

theorem synthName_ne_zero_probe (t : String) {k : Nat} (hk : k ≠ 0) :
    synthName t k ≠ t ++ "_0" := by
  intro h
  have hd := congrArg String.data h
  rw [synthName_data, String.data_append] at hd
  have h2 : '_' :: natChars k = '_' :: ['0'] := List.append_cancel_left hd
  simp only [List.cons.injEq, true_and] at h2
  exact hk (natChars_eq_zero_chars h2)

theorem synthName_ne_connector_probe (t : String) (k : Nat) :
    synthName t k ≠ t ++ "_connector" := by
  intro h
  have hd := congrArg String.data h
  rw [synthName_data, String.data_append] at hd
  have h2 : '_' :: natChars k = '_' :: "connector".data := List.append_cancel_left hd
  simp only [List.cons.injEq, true_and] at h2
  have hc : 'c' ∈ natChars k := by
    rw [h2]
    decide
  have := mem_natChars_isDigit k 'c' hc
  simp at this

/-- Data object type registry (src/engine/dispatcher.rs
`DataObjectTypeRegistry`): both `HashMap`s as association lists. -/
structure DataObjectTypeRegistry where
  type_to_connector : List (String × String)
  connector_capabilities : List (String × DispatchCapabilities)

/-- `DataObjectTypeRegistry::register_type`: fails when the object type is
already mapped, otherwise inserts the type mapping and the capabilities. -/
def DataObjectTypeRegistry.register_type (r : DataObjectTypeRegistry)
    (object_type connector_name : String) (caps : DispatchCapabilities) :
    Except NirvError DataObjectTypeRegistry :=
  if containsKey r.type_to_connector object_type then
    .error (.dispatcher (.registrationFailed
      ("Data object type \x27" ++ object_type ++ "\x27 is already registered")))
  else
    .ok ⟨r.type_to_connector ++ [(object_type, connector_name)],
      r.connector_capabilities ++ [(connector_name, caps)]⟩

/-- `DataObjectTypeRegistry::list_types`: the registered type names. -/
def DataObjectTypeRegistry.list_types (r : DataObjectTypeRegistry) : List String :=
  r.type_to_connector.map Prod.fst

/-- `ConnectorRegistry::register`: fails when the name is taken, otherwise
inserts. -/
def connectorRegistryRegister (l : List (String × Connector)) (name : String)
    (c : Connector) : Except NirvError (List (String × Connector)) :=
  if containsKey l name then
    .error (.dispatcher (.registrationFailed
      ("Connector \x27" ++ name ++ "\x27 is already registered")))
  else
    .ok (l ++ [(name, c)])

/-- `DefaultDispatcher` (src/engine/dispatcher.rs): connector registry plus
type registry. -/
structure DefaultDispatcher where
  connector_registry : List (String × Connector)
  type_registry : DataObjectTypeRegistry

/-- `DefaultDispatcher::new()`: empty registries. -/
def DefaultDispatcher.new : DefaultDispatcher := ⟨[], ⟨[], []⟩⟩

/-- `DefaultDispatcher::register_connector`.  The Rust method mutates
`self` in place through `&mut`, so the embedding returns the outcome
together with the state left behind — in particular the connector-registry
insertion persists when the later type registration fails. -/
def register_connector (d : DefaultDispatcher) (object_type : String)
    (c : Connector) : Except NirvError Unit × DefaultDispatcher :=
  let connector_name := synthName object_type d.connector_registry.length
  let caps : DispatchCapabilities :=
    ⟨c.capabilities.supports_joins, c.capabilities.supports_aggregations,
      c.capabilities.supports_subqueries, c.capabilities.max_concurrent_queries⟩
  match connectorRegistryRegister d.connector_registry connector_name c with
  | .error e => (.error e, d)
  | .ok reg1 =>
      let d1 : DefaultDispatcher := ⟨reg1, d.type_registry⟩
      match d1.type_registry.register_type object_type connector_name caps with
      | .error e => (.error e, d1)
      | .ok tr => (.ok (), ⟨reg1, tr⟩)

/-- Debug rendering of a list of strings, as in `format!` with the `{:?}`
specifier on `Vec<String>` (inner escaping of quotes is abstracted). -/
def vecDebug (l : List String) : String :=
  "[" ++ String.intercalate ", " (l.map (fun s => "\"" ++ s ++ "\"")) ++ "]"

/-- The message of the dispatcher's unregistered-object-type error: it names
the offending type and lists the currently registered types. -/
def unregisteredMsg (t : String) (types : List String) : String :=
  "Data object type \x27" ++ t ++ "\x27 is not registered. Available types: "
    ++ vecDebug types

/-- `DefaultDispatcher::validate_data_sources`: every source's object type
must be registered; the first unregistered one is reported. -/
def validate_data_sources (d : DefaultDispatcher) :
    List DataSource → Except NirvError Unit
  | [] => .ok ()
  | s :: rest =>
      if containsKey d.type_registry.type_to_connector s.object_type then
        validate_data_sources d rest
      else
        .error (.dispatcher (.unregisteredObjectType
          (unregisteredMsg s.object_type d.type_registry.list_types)))

/-- `DefaultDispatcher::create_connector_queries`: for each source, resolve
the connector name and the connector, and emit an envelope tagged with the
connector's type and carrying the whole query. -/
def create_connector_queries (d : DefaultDispatcher) (q : InternalQuery) :
    List DataSource → Except NirvError (List ConnectorQuery)
  | [] => .ok []
  | s :: rest =>
      match lookupKey d.type_registry.type_to_connector s.object_type with
      | none => .error (.dispatcher (.unregisteredObjectType s.object_type))
      | some name =>
          match lookupKey d.connector_registry name with
          | none => .error (.dispatcher .noSuitableConnector)
          | some c =>
              match create_connector_queries d q rest with
              | .error e => .error e
              | .ok cqs => .ok (⟨c.connector_type, q, []⟩ :: cqs)

/-- `DefaultDispatcher::route_query`. -/
def route_query (d : DefaultDispatcher) (q : InternalQuery) :
    Except NirvError (List ConnectorQuery) :=
  if q.sources.isEmpty then
    .error (.dispatcher (.routingFailed "No data sources found in query"))
  else
    match validate_data_sources d q.sources with
    | .error e => .error e
    | .ok () =>
        if q.sources.length > 1 then
          .error (.dispatcher .crossConnectorJoinUnsupported)
        else
          create_connector_queries d q q.sources

/-- Outcome of a Rust call that can also panic (used where the code indexes
`sources[0]` without a bounds check). -/
inductive RustOutcome (α : Type)
  | ok (a : α)
  | err (e : NirvError)
  | panicked

/-- View of a `Result` as a `RustOutcome`. -/
def liftExcept {α : Type} : Except NirvError α → RustOutcome α
  | .ok a => .ok a
  | .error e => .err e

/-- `DefaultDispatcher::execute_distributed_query`: empty input is an empty
result; more than one envelope is unsupported; a single envelope re-resolves
the connector from its query's first source (panicking when there is none)
and returns that connector's result as is. -/
def execute_distributed_query (d : DefaultDispatcher) :
    List ConnectorQuery → RustOutcome QueryResult
  | [] => .ok QueryResult.new
  | [cq] =>
      match cq.query.sources.head? with
      | none => .panicked
      | some src =>
          match lookupKey d.type_registry.type_to_connector src.object_type with
          | none => .err (.dispatcher (.unregisteredObjectType src.object_type))
          | some name =>
              match lookupKey d.connector_registry name with
              | none => .err (.dispatcher .noSuitableConnector)
              | some c => liftExcept (c.execute_query cq)
  | _ :: _ :: _ => .err (.dispatcher .crossConnectorJoinUnsupported)

end Nirv

namespace Nirv

/-! Association-list registry lemmas, dispatcher reachability and its
registry invariant. -/

theorem containsKey_append {α : Type} (l l2 : List (String × α)) (k : String) :
    containsKey (l ++ l2) k = (containsKey l k || containsKey l2 k) := by
  induction l with
  | nil => simp [containsKey]
  | cons p rest ih => simp [containsKey, ih, Bool.or_assoc]

theorem containsKey_exists {α : Type} {l : List (String × α)} {k : String}
    (h : containsKey l k = true) : ∃ p ∈ l, p.1 = k := by
  induction l with
  | nil => simp [containsKey] at h
  | cons p rest ih =>
    simp only [containsKey, Bool.or_eq_true, beq_iff_eq] at h
    rcases h with h | h
    · exact ⟨p, by simp, h⟩
    · obtain ⟨p0, hp0, he⟩ := ih h
      exact ⟨p0, by simp [hp0], he⟩

theorem lookupKey_some_containsKey {α : Type} {l : List (String × α)}
    {k : String} {v : α} (h : lookupKey l k = some v) :
    containsKey l k = true := by
  induction l with
  | nil => simp [lookupKey] at h
  | cons p rest ih =>
    simp only [lookupKey] at h
    by_cases he : p.1 = k
    · simp [containsKey, he]
    · rw [if_neg he] at h
      simp [containsKey, he, ih h]

theorem lookupKey_append_left {α : Type} {l : List (String × α)} {k : String}
    {v : α} (l2 : List (String × α)) (h : lookupKey l k = some v) :
    lookupKey (l ++ l2) k = some v := by
  induction l with
  | nil => simp [lookupKey] at h
  | cons p rest ih =>
    simp only [lookupKey] at h ⊢
    by_cases he : p.1 = k
    · rwa [if_pos he] at h ⊢
    · rw [if_neg he] at h ⊢
      exact ih h

theorem lookupKey_append_fresh {α : Type} {l : List (String × α)} {k : String}
    (v : α) (h : containsKey l k = false) :
    lookupKey (l ++ [(k, v)]) k = some v := by
  induction l with
  | nil => simp [lookupKey]
  | cons p rest ih =>
    simp only [containsKey, Bool.or_eq_false_iff, beq_eq_false_iff_ne] at h
    simp only [List.cons_append, lookupKey, if_neg h.1]
    exact ih h.2

/-- Dispatcher states reachable from `DefaultDispatcher::new()` by
`register_connector` calls. -/
inductive Reachable : DefaultDispatcher → Prop
  | new : Reachable DefaultDispatcher.new
  | step (d : DefaultDispatcher) (t : String) (c : Connector) :
      Reachable d → Reachable (register_connector d t c).2

/-- Registry invariant of reachable dispatcher states: every connector key
is a synthesized name whose ordinal is below the registry size, and every
type mapping points at a present connector key. -/
def DispatcherInv (d : DefaultDispatcher) : Prop :=
  (∀ p ∈ d.connector_registry,
    ∃ u j, j < d.connector_registry.length ∧ p.1 = synthName u j) ∧
  (∀ p ∈ d.type_registry.type_to_connector,
    containsKey d.connector_registry p.2 = true)

theorem inv_fresh {d : DefaultDispatcher} (h : DispatcherInv d) (t : String) :
    containsKey d.connector_registry
      (synthName t d.connector_registry.length) = false := by
  by_contra hc
  rw [Bool.not_eq_false] at hc
  obtain ⟨p, hp, he⟩ := containsKey_exists hc
  obtain ⟨u, j, hj, he2⟩ := h.1 p hp
  rw [he2] at he
  have := synthName_ordinal_inj he
  omega

theorem reachable_inv {d : DefaultDispatcher} (h : Reachable d) :
    DispatcherInv d := by
  induction h with
  | new =>
    constructor
    · intro p hp
      simp [DefaultDispatcher.new] at hp
    · intro p hp
      simp [DefaultDispatcher.new] at hp
  | step d0 t c _hr ih =>
    have hfresh := inv_fresh ih t
    by_cases ht : containsKey d0.type_registry.type_to_connector t = true
    · have hstate : (register_connector d0 t c).2 =
          ⟨d0.connector_registry ++
            [(synthName t d0.connector_registry.length, c)], d0.type_registry⟩ := by
        simp [register_connector, connectorRegistryRegister, hfresh,
          DataObjectTypeRegistry.register_type, ht]
      rw [hstate]
      constructor
      · intro p hp
        simp only [List.mem_append, List.mem_singleton] at hp
        rcases hp with hp | hp
        · obtain ⟨u, j, hj, he⟩ := ih.1 p hp
          exact ⟨u, j, by simp; omega, he⟩
        · exact ⟨t, d0.connector_registry.length, by simp, by rw [hp]⟩
      · intro p hp
        have := ih.2 p hp
        simp [containsKey_append, this]
    · rw [Bool.not_eq_true] at ht
      have hstate : (register_connector d0 t c).2 =
          ⟨d0.connector_registry ++
            [(synthName t d0.connector_registry.length, c)],
            ⟨d0.type_registry.type_to_connector ++
              [(t, synthName t d0.connector_registry.length)],
              d0.type_registry.connector_capabilities ++
              [(synthName t d0.connector_registry.length,
                ⟨c.capabilities.supports_joins, c.capabilities.supports_aggregations,
                  c.capabilities.supports_subqueries,
                  c.capabilities.max_concurrent_queries⟩)]⟩⟩ := by
        simp [register_connector, connectorRegistryRegister, hfresh,
          DataObjectTypeRegistry.register_type, ht]
      rw [hstate]
      constructor
      · intro p hp
        simp only [List.mem_append, List.mem_singleton] at hp
        rcases hp with hp | hp
        · obtain ⟨u, j, hj, he⟩ := ih.1 p hp
          exact ⟨u, j, by simp; omega, he⟩
        · exact ⟨t, d0.connector_registry.length, by simp, by rw [hp]⟩
      · intro p hp
        simp only [List.mem_append, List.mem_singleton] at hp
        rcases hp with hp | hp
        · have := ih.2 p hp
          simp [containsKey_append, this]
        · rw [hp]
          simp [containsKey_append, containsKey]

end Nirv

namespace Nirv

/-! Claims C1, C2, C9, C10: routing, distributed execution, duplicate
registration. -/

theorem validate_data_sources_ok (d : DefaultDispatcher) :
    ∀ ss : List DataSource,
      (∀ s ∈ ss, containsKey d.type_registry.type_to_connector s.object_type = true) →
      validate_data_sources d ss = .ok () := by
  intro ss
  induction ss with
  | nil => intro _; rfl
  | cons s rest ih =>
    intro hall
    have hc := hall s (by simp)
    simp only [validate_data_sources, hc, if_true]
    exact ih (fun x hx => hall x (by simp [hx]))

theorem validate_data_sources_fail (d : DefaultDispatcher) :
    ∀ ss : List DataSource,
      (∃ s ∈ ss, containsKey d.type_registry.type_to_connector s.object_type = false) →
      ∃ s0 ∈ ss, containsKey d.type_registry.type_to_connector s0.object_type = false ∧
        validate_data_sources d ss = .error (.dispatcher (.unregisteredObjectType
          (unregisteredMsg s0.object_type d.type_registry.list_types))) := by
  intro ss
  induction ss with
  | nil => simp
  | cons s rest ih =>
    intro hex
    by_cases hc : containsKey d.type_registry.type_to_connector s.object_type = true
    · have hex2 : ∃ x ∈ rest, containsKey d.type_registry.type_to_connector x.object_type = false := by
        obtain ⟨x, hx, hxf⟩ := hex
        simp only [List.mem_cons] at hx
        rcases hx with rfl | hx
        · rw [hc] at hxf; cases hxf
        · exact ⟨x, hx, hxf⟩
      obtain ⟨s0, hmem, hun, hval⟩ := ih hex2
      exact ⟨s0, by simp [hmem], hun, by simp [validate_data_sources, hc, hval]⟩
    · rw [Bool.not_eq_true] at hc
      exact ⟨s, by simp, hc, by simp [validate_data_sources, hc]⟩

/-- C1: `route_query` fails with "routing failed" on zero sources; fails
with an unregistered-object-type error whose message lists the registered
types when some source's type is unregistered; fails with
"cross-connector join unsupported" on two or more sources even when all are
registered; and on exactly one source resolving to a connector it returns
exactly one envelope tagged with that connector's type and carrying the
original query. -/
theorem route_query_spec (d : DefaultDispatcher) (q : InternalQuery) :
    (q.sources = [] →
      route_query d q = .error (.dispatcher (.routingFailed "No data sources found in query"))) ∧
    ((∃ s ∈ q.sources, containsKey d.type_registry.type_to_connector s.object_type = false) →
      ∃ s0 ∈ q.sources, containsKey d.type_registry.type_to_connector s0.object_type = false ∧
        route_query d q = .error (.dispatcher (.unregisteredObjectType
          (unregisteredMsg s0.object_type d.type_registry.list_types)))) ∧
    (1 < q.sources.length →
      (∀ s ∈ q.sources, containsKey d.type_registry.type_to_connector s.object_type = true) →
      route_query d q = .error (.dispatcher .crossConnectorJoinUnsupported)) ∧
    (∀ (src : DataSource) (name : String) (c : Connector), q.sources = [src] →
      lookupKey d.type_registry.type_to_connector src.object_type = some name →
      lookupKey d.connector_registry name = some c →
      route_query d q = .ok [⟨c.connector_type, q, []⟩]) := by
  refine ⟨fun h0 => ?_, fun hex => ?_, fun hlen hall => ?_,
    fun src name c hsrc hname hconn => ?_⟩
  · simp [route_query, h0]
  · obtain ⟨s0, hs0mem, hs0un, hval⟩ := validate_data_sources_fail d q.sources hex
    have hne : q.sources.isEmpty = false := by
      cases hq : q.sources with
      | nil => rw [hq] at hs0mem; simp at hs0mem
      | cons a l => simp [hq]
    exact ⟨s0, hs0mem, hs0un, by simp [route_query, hne, hval]⟩
  · have hval := validate_data_sources_ok d q.sources hall
    have hne : q.sources.isEmpty = false := by
      cases hq : q.sources with
      | nil => rw [hq] at hlen; simp at hlen
      | cons a l => simp [hq]
    simp [route_query, hne, hval, hlen]
  · have hcont := lookupKey_some_containsKey hname
    simp [route_query, hsrc, validate_data_sources, hcont,
      create_connector_queries, hname, hconn]

/-- C2: `execute_distributed_query` returns an empty result on no
envelopes, fails with "cross-connector join unsupported" on two or more,
and on exactly one envelope re-resolves the connector from the envelope's
first source and returns that connector's `execute_query` result
unmodified. -/
theorem execute_distributed_query_spec (d : DefaultDispatcher) :
    (execute_distributed_query d [] = .ok QueryResult.new ∧ QueryResult.new.rows = []) ∧
    (∀ (cq1 cq2 : ConnectorQuery) (rest : List ConnectorQuery),
      execute_distributed_query d (cq1 :: cq2 :: rest)
        = .err (.dispatcher .crossConnectorJoinUnsupported)) ∧
    (∀ (cq : ConnectorQuery) (src : DataSource) (rest : List DataSource)
        (name : String) (c : Connector),
      cq.query.sources = src :: rest →
      lookupKey d.type_registry.type_to_connector src.object_type = some name →
      lookupKey d.connector_registry name = some c →
      execute_distributed_query d [cq] = liftExcept (c.execute_query cq)) := by
  refine ⟨⟨rfl, rfl⟩, fun cq1 cq2 rest => rfl,
    fun cq src rest name c hs hn hc => ?_⟩
  simp [execute_distributed_query, hs, hn, hc]

/-- Outcome of a duplicate `register_connector` call for an already
registered type: the call fails with "registration failed" and the first
registration stays active and routable. -/
def RegisterDuplicateSpec (d : DefaultDispatcher) (t : String)
    (c cOld : Connector) (name : String) : Prop :=
  (register_connector d t c).1 = .error (.dispatcher (.registrationFailed
      ("Data object type \x27" ++ t ++ "\x27 is already registered"))) ∧
  lookupKey (register_connector d t c).2.type_registry.type_to_connector t = some name ∧
  lookupKey (register_connector d t c).2.connector_registry name = some cOld ∧
  ∀ (q : InternalQuery) (src : DataSource), q.sources = [src] → src.object_type = t →
    route_query (register_connector d t c).2 q = .ok [⟨cOld.connector_type, q, []⟩]

/-- C9: in any reachable dispatcher state where object type `t` maps to a
registered connector, a second `register_connector` call for `t` fails with
a "registration failed" dispatcher error, the type still maps to the
original connector, and `route_query` for that type still succeeds. -/
theorem register_connector_duplicate_preserves (d : DefaultDispatcher)
    (t : String) (c cOld : Connector) (name : String) (hr : Reachable d)
    (hmap : lookupKey d.type_registry.type_to_connector t = some name)
    (hconn : lookupKey d.connector_registry name = some cOld) :
    RegisterDuplicateSpec d t c cOld name := by
  have hI := reachable_inv hr
  have hfresh := inv_fresh hI t
  have ht : containsKey d.type_registry.type_to_connector t = true :=
    lookupKey_some_containsKey hmap
  have houtcome : register_connector d t c =
      (.error (.dispatcher (.registrationFailed
        ("Data object type \x27" ++ t ++ "\x27 is already registered"))),
        ⟨d.connector_registry ++ [(synthName t d.connector_registry.length, c)],
          d.type_registry⟩) := by
    simp [register_connector, connectorRegistryRegister, hfresh,
      DataObjectTypeRegistry.register_type, ht]
  have hl : lookupKey (d.connector_registry ++
      [(synthName t d.connector_registry.length, c)]) name = some cOld :=
    lookupKey_append_left _ hconn
  refine ⟨by simp [houtcome], by simp [houtcome, hmap], by simp [houtcome, hl],
    fun q src hq hsrc => ?_⟩
  have hcont : containsKey d.type_registry.type_to_connector src.object_type = true := by
    rw [hsrc]; exact ht
  have hname : lookupKey d.type_registry.type_to_connector src.object_type = some name := by
    rw [hsrc]; exact hmap
  simp [houtcome, route_query, hq, validate_data_sources, hcont,
    create_connector_queries, hname, hl]

/-- Effect on the registries of a duplicate `register_connector` call: the
call errors, yet the connector registry has grown by the new connector
stored under the synthesized name. -/
def RegisterNonAtomicSpec (d : DefaultDispatcher) (t : String) (c : Connector) : Prop :=
  (register_connector d t c).1 = .error (.dispatcher (.registrationFailed
      ("Data object type \x27" ++ t ++ "\x27 is already registered"))) ∧
  (register_connector d t c).2.connector_registry
    = d.connector_registry ++ [(synthName t d.connector_registry.length, c)] ∧
  (register_connector d t c).2.connector_registry.length
    = d.connector_registry.length + 1 ∧
  lookupKey (register_connector d t c).2.connector_registry
    (synthName t d.connector_registry.length) = some c

/-- C10: `register_connector` is not atomic on failure — in any reachable
state whose type registry already holds the object type, the duplicate call
returns a registration-failed error but has still inserted the new
connector under the name synthesized from the object type and the
pre-call registry size, growing the connector registry by one. -/
theorem register_connector_nonatomic (d : DefaultDispatcher) (t : String)
    (c : Connector) (hr : Reachable d)
    (ht : containsKey d.type_registry.type_to_connector t = true) :
    RegisterNonAtomicSpec d t c := by
  have hI := reachable_inv hr
  have hfresh := inv_fresh hI t
  have houtcome : register_connector d t c =
      (.error (.dispatcher (.registrationFailed
        ("Data object type \x27" ++ t ++ "\x27 is already registered"))),
        ⟨d.connector_registry ++ [(synthName t d.connector_registry.length, c)],
          d.type_registry⟩) := by
    simp [register_connector, connectorRegistryRegister, hfresh,
      DataObjectTypeRegistry.register_type, ht]
  refine ⟨by simp [houtcome], by simp [houtcome], by simp [houtcome], ?_⟩
  simp only [houtcome]
  exact lookupKey_append_fresh c hfresh

/-- A mock connector mirroring the defaults of the connector trait. -/
def mockConnector : Connector :=
  ⟨.mock, ⟨false, false, false, false, true, some 1⟩, fun _ => .ok QueryResult.new⟩

/-- A second connector instance used to attempt duplicate registration. -/
def mockConnector2 : Connector :=
  ⟨.postgreSQL, ⟨false, false, false, false, true, some 1⟩, fun _ => .ok QueryResult.new⟩

/-- The dispatcher obtained by registering `mockConnector` for object type
"mock" on a fresh dispatcher. -/
def dispatcher1 : DefaultDispatcher :=
  (register_connector DefaultDispatcher.new "mock" mockConnector).2

/-- A concrete single-source query addressed at the "mock" object type. -/
def mockQuery : InternalQuery :=
  { InternalQuery.new .select with sources := [⟨"mock", "users", none⟩] }

/-- Witness for C1 at the concrete dispatcher with one registered type. -/
theorem route_query_spec_witness :
    ((InternalQuery.new .select).sources = []) ∧
    route_query dispatcher1 (InternalQuery.new .select)
      = .error (.dispatcher (.routingFailed "No data sources found in query")) ∧
    (∃ s0 ∈ ({ InternalQuery.new .select with
        sources := [⟨"nope", "x", none⟩] } : InternalQuery).sources,
      containsKey dispatcher1.type_registry.type_to_connector s0.object_type = false ∧
      route_query dispatcher1 { InternalQuery.new .select with
          sources := [⟨"nope", "x", none⟩] }
        = .error (.dispatcher (.unregisteredObjectType
            (unregisteredMsg s0.object_type dispatcher1.type_registry.list_types)))) ∧
    route_query dispatcher1 { InternalQuery.new .select with
        sources := [⟨"mock", "a", none⟩, ⟨"mock", "b", none⟩] }
      = .error (.dispatcher .crossConnectorJoinUnsupported) ∧
    route_query dispatcher1 mockQuery = .ok [⟨.mock, mockQuery, []⟩] :=
  ⟨rfl,
   (route_query_spec dispatcher1 (InternalQuery.new .select)).1 rfl,
   (route_query_spec dispatcher1 _).2.1 ⟨⟨"nope", "x", none⟩, by simp, by rfl⟩,
   (route_query_spec dispatcher1 _).2.2.1 (by simp) (by decide),
   (route_query_spec dispatcher1 mockQuery).2.2.2 ⟨"mock", "users", none⟩
     "mock_0" mockConnector rfl rfl rfl⟩

/-- Witness for C2 at the concrete dispatcher. -/
theorem execute_distributed_query_spec_witness :
    (execute_distributed_query dispatcher1 [] = .ok QueryResult.new) ∧
    (execute_distributed_query dispatcher1
        [⟨.mock, mockQuery, []⟩, ⟨.mock, mockQuery, []⟩]
      = .err (.dispatcher .crossConnectorJoinUnsupported)) ∧
    (mockQuery.sources = [⟨"mock", "users", none⟩] ∧
      execute_distributed_query dispatcher1 [⟨.mock, mockQuery, []⟩]
        = liftExcept (mockConnector.execute_query ⟨.mock, mockQuery, []⟩)) :=
  ⟨(execute_distributed_query_spec dispatcher1).1.1,
   (execute_distributed_query_spec dispatcher1).2.1 _ _ [],
   rfl,
   (execute_distributed_query_spec dispatcher1).2.2 ⟨.mock, mockQuery, []⟩
     ⟨"mock", "users", none⟩ [] "mock_0" mockConnector rfl rfl rfl⟩

/-- Witness for C9 at the concrete dispatcher. -/
theorem register_connector_duplicate_preserves_witness :
    (lookupKey dispatcher1.type_registry.type_to_connector "mock" = some "mock_0") ∧
    (lookupKey dispatcher1.connector_registry "mock_0" = some mockConnector) ∧
    RegisterDuplicateSpec dispatcher1 "mock" mockConnector2 mockConnector "mock_0" :=
  ⟨rfl, rfl,
   register_connector_duplicate_preserves dispatcher1 "mock" mockConnector2
     mockConnector "mock_0"
     (Reachable.step DefaultDispatcher.new "mock" mockConnector Reachable.new)
     rfl rfl⟩

/-- Witness for C10 at the concrete dispatcher. -/
theorem register_connector_nonatomic_witness :
    (containsKey dispatcher1.type_registry.type_to_connector "mock" = true) ∧
    RegisterNonAtomicSpec dispatcher1 "mock" mockConnector2 :=
  ⟨rfl,
   register_connector_nonatomic dispatcher1 "mock" mockConnector2
     (Reachable.step DefaultDispatcher.new "mock" mockConnector Reachable.new)
     rfl⟩

end Nirv

namespace Nirv

/-! Value comparison (src/engine/query_executor.rs `compare_values`).
Rust `Ord` on scalars is embedded as `ordCompare` over a linear order, and
`Ord` on `String` (byte-lexicographic over UTF-8, which coincides with
code-point order) as `lexCompare` over the character list. -/

/-- Three-way comparison from a linear order, as Rust `Ord::cmp`. -/
def ordCompare {α : Type} [LinearOrder α] (a b : α) : Ordering :=
  if a < b then .lt else if b < a then .gt else .eq

theorem ordCompare_swap {α : Type} [LinearOrder α] (a b : α) :
    ordCompare b a = (ordCompare a b).swap := by
  rcases lt_trichotomy a b with h | rfl | h
  · simp [ordCompare, h, asymm h]
    rfl
  · simp [ordCompare, lt_irrefl]
    rfl
  · simp [ordCompare, h, asymm h]
    rfl

theorem ordCompare_eq_iff {α : Type} [LinearOrder α] {a b : α} :
    ordCompare a b = .eq ↔ a = b := by
  rcases lt_trichotomy a b with h | rfl | h
  · simp [ordCompare, h, ne_of_lt h]
  · simp [ordCompare, lt_irrefl]
  · simp [ordCompare, h, asymm h]
    exact fun he => absurd he (ne_of_gt h)

theorem ordCompare_lt_iff {α : Type} [LinearOrder α] {a b : α} :
    ordCompare a b = .lt ↔ a < b := by
  rcases lt_trichotomy a b with h | rfl | h
  · simp [ordCompare, h]
  · simp [ordCompare, lt_irrefl]
  · simp [ordCompare, h, asymm h]

theorem ordCompare_lt_trans {α : Type} [LinearOrder α] {a b c : α}
    (h1 : ordCompare a b = .lt) (h2 : ordCompare b c = .lt) :
    ordCompare a c = .lt :=
  ordCompare_lt_iff.mpr (lt_trans (ordCompare_lt_iff.mp h1) (ordCompare_lt_iff.mp h2))

/-- Lexicographic comparison of lists, as Rust `Ord` on `String`/`Vec`. -/
def lexCompare {α : Type} [LinearOrder α] : List α → List α → Ordering
  | [], [] => .eq
  | [], _ :: _ => .lt
  | _ :: _, [] => .gt
  | a :: as, b :: bs =>
      if a < b then .lt else if b < a then .gt else lexCompare as bs

theorem lexCompare_swap {α : Type} [LinearOrder α] :
    ∀ l r : List α, lexCompare r l = (lexCompare l r).swap := by
  intro l
  induction l with
  | nil => intro r; cases r <;> rfl
  | cons a as ih =>
    intro r
    cases r with
    | nil => rfl
    | cons b bs =>
      rcases lt_trichotomy a b with h | rfl | h
      · simp [lexCompare, h, asymm h]
        rfl
      · simp [lexCompare, lt_irrefl]
        exact ih bs
      · simp [lexCompare, h, asymm h]
        rfl

theorem lexCompare_eq_iff {α : Type} [LinearOrder α] :
    ∀ l r : List α, lexCompare l r = .eq ↔ l = r := by
  intro l
  induction l with
  | nil => intro r; cases r <;> simp [lexCompare]
  | cons a as ih =>
    intro r
    cases r with
    | nil => simp [lexCompare]
    | cons b bs =>
      rcases lt_trichotomy a b with h | rfl | h
      · simp [lexCompare, h, ne_of_lt h]
      · simp [lexCompare, lt_irrefl, ih bs]
      · have hgt : lexCompare (a :: as) (b :: bs) = .gt := by
          simp [lexCompare, asymm h, h]
        simp [hgt, ne_of_gt h]

theorem lexCompare_lt_trans {α : Type} [LinearOrder α] :
    ∀ l1 l2 l3 : List α, lexCompare l1 l2 = .lt → lexCompare l2 l3 = .lt →
      lexCompare l1 l3 = .lt := by
  intro l1
  induction l1 with
  | nil =>
    intro l2 l3 h1 h2
    cases l2 with
    | nil => cases h1
    | cons b bs =>
      cases l3 with
      | nil => cases h2
      | cons c cs => rfl
  | cons a as ih =>
    intro l2 l3 h1 h2
    cases l2 with
    | nil => cases h1
    | cons b bs =>
      cases l3 with
      | nil => cases h2
      | cons c cs =>
        rcases lt_trichotomy a b with hab | rfl | hab
        · rcases lt_trichotomy b c with hbc | rfl | hbc
          · simp [lexCompare, lt_trans hab hbc]
          · simp [lexCompare, hab]
          · simp [lexCompare, asymm hbc, hbc] at h2
        · rcases lt_trichotomy a c with hac | rfl | hac
          · simp [lexCompare, hac]
          · simp only [lexCompare, lt_irrefl, if_false] at h1 h2 ⊢
            exact ih bs cs h1 h2
          · simp [lexCompare, asymm hac, hac] at h2
        · simp [lexCompare, asymm hab, hab] at h1

end Nirv

namespace Nirv

/-! Debug rendering of `Value`, as `format!` with the `{:?}` specifier
produces it (derive(Debug) output): the constructor tag, an opening
parenthesis, the payload and a closing parenthesis.  Cell payload
renderings follow derive(Debug) for strings (quoted, quotes and
backslashes escaped), integers and byte vectors; the decimal text of an
`f64` is abstracted by the exact rational rendered as numerator/denominator
— no theorem below depends on any payload text, only on the variant tag
prefixes. -/

/-- Escapes of derive(Debug) string rendering (quote and backslash). -/
def escapeChars : List Char → List Char
  | [] => []
  | c :: rest => (if c = '"' ∨ c = '\\' then ['\\', c] else [c]) ++ escapeChars rest

/-- A derive(Debug) quoted string body. -/
def quoted (l : List Char) : List Char :=
  '"' :: (escapeChars l ++ ['"'])

/-- Decimal rendering of an `i64`. -/
def intChars (n : Int) : List Char :=
  if n < 0 then '-' :: natChars n.natAbs else natChars n.toNat

/-- Rendering of the `Rat` standing in for an `f64` payload. -/
def ratChars (q : Rat) : List Char :=
  intChars q.num ++ (if q.den = 1 then [] else '/' :: natChars q.den)

/-- Rendering of a `bool` payload. -/
def boolChars (b : Bool) : List Char :=
  if b then "true".toList else "false".toList

/-- Rendering of the elements of a `Vec<u8>` payload. -/
def bytesBody : List Nat → List Char
  | [] => []
  | [n] => natChars n
  | n :: rest => natChars n ++ ',' :: ' ' :: bytesBody rest

/-- Rendering of a `Vec<u8>` payload. -/
def bytesChars (l : List Nat) : List Char :=
  '[' :: (bytesBody l ++ [']'])

/-- The derive(Debug) rendering of a `Value`. -/
def debugChars : Value → List Char
  | .text s => "Text(".toList ++ quoted s.data ++ [')']
  | .integer n => "Integer(".toList ++ intChars n ++ [')']
  | .float q => "Float(".toList ++ ratChars q ++ [')']
  | .boolean b => "Boolean(".toList ++ boolChars b ++ [')']
  | .date s => "Date(".toList ++ quoted s.data ++ [')']
  | .dateTime s => "DateTime(".toList ++ quoted s.data ++ [')']
  | .json s => "Json(".toList ++ quoted s.data ++ [')']
  | .binary bs => "Binary(".toList ++ bytesChars bs ++ [')']
  | .null => "Null".toList

/-- `DefaultQueryExecutor::compare_values`: null first, native comparison
for same-variant Integer/Float/Text/Boolean/Date/DateTime pairs, and the
debug-string comparison for everything else (mixed variants, and Json/Json
and Binary/Binary pairs, which have no native arm). -/
def compare_values (a b : Value) : Ordering :=
  match a, b with
  | .null, .null => .eq
  | .null, _ => .lt
  | _, .null => .gt
  | .integer x, .integer y => ordCompare x y
  | .float x, .float y => ordCompare x y
  | .text x, .text y => lexCompare x.data y.data
  | .boolean x, .boolean y => ordCompare x y
  | .date x, .date y => lexCompare x.data y.data
  | .dateTime x, .dateTime y => lexCompare x.data y.data
  | a, b => lexCompare (debugChars a) (debugChars b)

theorem compare_values_swap (a b : Value) :
    compare_values b a = (compare_values a b).swap := by
  cases a <;> cases b <;>
    first
      | rfl
      | exact ordCompare_swap _ _
      | exact lexCompare_swap _ _

theorem compare_values_lt_trans {a b c : Value}
    (h1 : compare_values a b = .lt) (h2 : compare_values b c = .lt) :
    compare_values a c = .lt := by
  cases a <;> cases b <;> cases c <;>
    first
      | rfl
      | exact Ordering.noConfusion h1
      | exact Ordering.noConfusion h2
      | exact ordCompare_lt_trans h1 h2
      | exact lexCompare_lt_trans _ _ _ h1 h2

theorem compare_values_eq_congr {a b : Value} (h : compare_values a b = .eq) :
    ∀ c, compare_values a c = compare_values b c := by
  cases a <;> cases b <;>
    first
      | exact fun c => rfl
      | exact Ordering.noConfusion h
      | (obtain rfl := ordCompare_eq_iff.mp h
         exact fun c => rfl)
      | (obtain rfl := String.ext ((lexCompare_eq_iff _ _).mp h)
         exact fun c => rfl)
      | (rename_i x y
         have hd : debugChars (.json x) = debugChars (.json y) :=
           (lexCompare_eq_iff _ _).mp h
         intro c
         cases c <;> first | rfl | (simp only [compare_values]; rw [hd]))
      | (rename_i x y
         have hd : debugChars (.binary x) = debugChars (.binary y) :=
           (lexCompare_eq_iff _ _).mp h
         intro c
         cases c <;> first | rfl | (simp only [compare_values]; rw [hd]))

theorem ordering_swap_inj {o1 o2 : Ordering} (h : o1.swap = o2.swap) : o1 = o2 := by
  cases o1 <;> cases o2 <;> first | rfl | cases h

theorem compare_values_le_trans {a b c : Value}
    (h1 : compare_values a b ≠ .gt) (h2 : compare_values b c ≠ .gt) :
    compare_values a c ≠ .gt := by
  cases hab : compare_values a b with
  | gt => exact absurd hab h1
  | eq =>
    rw [compare_values_eq_congr hab c]
    exact h2
  | lt =>
    cases hbc : compare_values b c with
    | gt => exact absurd hbc h2
    | eq =>
      have hba : compare_values b a = compare_values c a :=
        compare_values_eq_congr hbc a
      rw [compare_values_swap a b, compare_values_swap a c] at hba
      have hac : compare_values a c = compare_values a b :=
        (ordering_swap_inj hba).symm
      rw [hac, hab]
      decide
    | lt =>
      rw [compare_values_lt_trans hab hbc]
      decide

theorem compare_values_le_total (a b : Value) :
    compare_values a b ≠ .gt ∨ compare_values b a ≠ .gt := by
  cases h : compare_values a b with
  | gt =>
    right
    rw [compare_values_swap a b, h]
    decide
  | lt =>
    left
    decide
  | eq =>
    left
    decide

theorem compare_values_null_lt (v : Value) (h : v ≠ .null) :
    compare_values .null v = .lt := by
  cases v <;> first | rfl | exact absurd rfl h

end Nirv

namespace Nirv

/-! Query executor (src/engine/query_executor.rs): claims C6 and C7. -/

/-- The cell a row contributes at a column index:
`a.get(column_index).unwrap_or(&Value::Null)`. -/
def row_value (r : Row) (i : Nat) : Value :=
  (r.get i).getD .null

/-- The boolean ordering relation the sort runs on: the comparator result
(reversed for a descending direction) is not `Greater`. -/
def sort_le (dir : OrderDirection) (i : Nat) (a b : Row) : Bool :=
  let comparison := compare_values (row_value a i) (row_value b i)
  let effective :=
    match dir with
    | .ascending => comparison
    | .descending => comparison.swap
  match effective with
  | .gt => false
  | _ => true

/-- `DefaultQueryExecutor::apply_limit`: truncate the rows. -/
def apply_limit (res : QueryResult) (count : Nat) : QueryResult :=
  { res with rows := res.rows.take count }

/-- `DefaultQueryExecutor::apply_sort`: no ordering columns leaves the
result untouched; an unknown primary column is an internal error; otherwise
the rows are stably sorted by the primary column (Rust `sort_by` is a
stable sort, embedded as `List.mergeSort`). -/
def apply_sort (res : QueryResult) (order_by : OrderBy) :
    Except NirvError QueryResult :=
  match order_by.columns with
  | [] => .ok res
  | sc :: _ =>
      match res.columns.findIdx? (fun col => col.name == sc.column) with
      | none =>
          .error (.internal
            ("Sort column \x27" ++ sc.column ++ "\x27 not found in result"))
      | some column_index =>
          .ok { res with
            rows := res.rows.mergeSort (sort_le sc.direction column_index) }

/-- `DefaultQueryExecutor::apply_projection`: a placeholder returning the
result unchanged. -/
def apply_projection (res : QueryResult) (_columns : List Column) :
    Except NirvError QueryResult :=
  .ok res

/-- The three registry names the executor probes, in order. -/
def possible_names (t : String) : List String :=
  [t, t ++ "_0", t ++ "_connector"]

/-- First registry hit among a list of candidate names. -/
def find_connector (reg : List (String × Connector)) :
    List String → Option Connector
  | [] => none
  | n :: rest =>
      match lookupKey reg n with
      | some c => some c
      | none => find_connector reg rest

/-- The query `execute_table_scan` builds for the connector. -/
def scan_query (source : DataSource) (projections : List Column)
    (predicates : List Predicate) : InternalQuery :=
  { InternalQuery.new .select with
    sources := [source], projections := projections, predicates := predicates }

/-- `DefaultQueryExecutor::execute_table_scan`: resolve the connector by the
three-name guess and delegate, or fail with an internal error. -/
def execute_table_scan (registry : Option (List (String × Connector)))
    (source : DataSource) (projections : List Column)
    (predicates : List Predicate) : Except NirvError QueryResult :=
  match registry with
  | none => .error (.internal "No connector registry configured")
  | some reg =>
      match find_connector reg (possible_names source.object_type) with
      | none =>
          .error (.internal
            ("No connector found for type: " ++ source.object_type))
      | some c =>
          c.execute_query
            ⟨c.connector_type, scan_query source projections predicates, []⟩

/-- `DefaultQueryExecutor::execute_node`. -/
def execute_node (registry : Option (List (String × Connector))) :
    PlanNode → Except NirvError QueryResult
  | .tableScan source projections predicates =>
      execute_table_scan registry source projections predicates
  | .limit count input =>
      match execute_node registry input with
      | .error e => .error e
      | .ok r => .ok (apply_limit r count)
  | .sort ob input =>
      match execute_node registry input with
      | .error e => .error e
      | .ok r => apply_sort r ob
  | .projection cols input =>
      match execute_node registry input with
      | .error e => .error e
      | .ok r => apply_projection r cols

theorem sort_le_asc (i : Nat) (a b : Row) :
    sort_le .ascending i a b = true ↔
      compare_values (row_value a i) (row_value b i) ≠ .gt := by
  cases h : compare_values (row_value a i) (row_value b i) <;>
    simp [sort_le, h]

theorem sort_le_desc (i : Nat) (a b : Row) :
    sort_le .descending i a b = true ↔
      compare_values (row_value a i) (row_value b i) ≠ .lt := by
  cases h : compare_values (row_value a i) (row_value b i) <;>
    simp [sort_le, h, Ordering.swap]

theorem swap_ne_gt {o : Ordering} (h : o ≠ .lt) : o.swap ≠ .gt := by
  cases o <;> simp_all [Ordering.swap]

theorem swap_ne_gt_ne_lt {o : Ordering} (h : o.swap ≠ .gt) : o ≠ .lt := by
  cases o <;> simp_all [Ordering.swap]

theorem compare_values_ge_trans {a b c : Value}
    (h1 : compare_values a b ≠ .lt) (h2 : compare_values b c ≠ .lt) :
    compare_values a c ≠ .lt := by
  have h1' : compare_values b a ≠ .gt := by
    rw [compare_values_swap a b]
    exact swap_ne_gt h1
  have h2' : compare_values c b ≠ .gt := by
    rw [compare_values_swap b c]
    exact swap_ne_gt h2
  have h3 := compare_values_le_trans h2' h1'
  rw [compare_values_swap a c] at h3
  exact swap_ne_gt_ne_lt h3

/-- What the sort produces for a result whose primary ordering column sits
at index `i`: the same columns, a permutation of the rows, pairwise
non-decreasing (ascending) or non-increasing (descending) cell values in
that column under `compare_values`, which puts `Null` before every
non-null value. -/
def SortedOutput (res : QueryResult) (ob : OrderBy) (sc : OrderColumn)
    (i : Nat) : Prop :=
  ∃ res2, apply_sort res ob = .ok res2 ∧
    res2.columns = res.columns ∧
    res2.rows.Perm res.rows ∧
    (sc.direction = .ascending →
      res2.rows.Pairwise (fun r1 r2 =>
        compare_values (row_value r1 i) (row_value r2 i) ≠ .gt)) ∧
    (sc.direction = .descending →
      res2.rows.Pairwise (fun r1 r2 =>
        compare_values (row_value r1 i) (row_value r2 i) ≠ .lt)) ∧
    (∀ v : Value, v ≠ .null → compare_values .null v = .lt)

/-- C6: when the primary ORDER BY column exists in the result's column
metadata, `apply_sort` succeeds and returns the same multiset of rows,
ordered non-decreasingly (ascending) or non-increasingly (descending) in
that column under the executor's total value order, in which `Null`
precedes every non-null value, same-variant values compare natively and
cross-variant values compare by their debug rendering. -/
theorem apply_sort_sorts (res : QueryResult) (ob : OrderBy)
    (sc : OrderColumn) (rest : List OrderColumn)
    (hcols : ob.columns = sc :: rest) (i : Nat)
    (hidx : res.columns.findIdx? (fun col => col.name == sc.column) = some i) :
    SortedOutput res ob sc i := by
  refine ⟨{ res with rows := res.rows.mergeSort (sort_le sc.direction i) },
    ?_, rfl, List.mergeSort_perm res.rows _, ?_, ?_, compare_values_null_lt⟩
  · simp [apply_sort, hcols, hidx]
  · intro hdir
    rw [hdir]
    have hp := @List.sorted_mergeSort Row (sort_le .ascending i)
      (fun a b c h1 h2 => (sort_le_asc i a c).mpr
        (compare_values_le_trans ((sort_le_asc i a b).mp h1)
          ((sort_le_asc i b c).mp h2)))
      (fun a b => by
        rcases compare_values_le_total (row_value a i) (row_value b i) with h | h
        · simp [(sort_le_asc i a b).mpr h]
        · simp [(sort_le_asc i b a).mpr h])
      res.rows
    exact hp.imp (fun hab => (sort_le_asc i _ _).mp hab)
  · intro hdir
    rw [hdir]
    have hp := @List.sorted_mergeSort Row (sort_le .descending i)
      (fun a b c h1 h2 => (sort_le_desc i a c).mpr
        (compare_values_ge_trans ((sort_le_desc i a b).mp h1)
          ((sort_le_desc i b c).mp h2)))
      (fun a b => by
        rcases compare_values_le_total (row_value b i) (row_value a i) with h | h
        · have h2 : compare_values (row_value a i) (row_value b i) ≠ .lt := by
            apply swap_ne_gt_ne_lt
            rw [← compare_values_swap (row_value a i) (row_value b i)]
            exact h
          simp [(sort_le_desc i a b).mpr h2]
        · have h2 : compare_values (row_value b i) (row_value a i) ≠ .lt := by
            apply swap_ne_gt_ne_lt
            rw [← compare_values_swap (row_value b i) (row_value a i)]
            exact h
          simp [(sort_le_desc i b a).mpr h2])
      res.rows
    exact hp.imp (fun hab => (sort_le_desc i _ _).mp hab)

/-- Concrete result used to witness the sort claim. -/
def sortWitnessResult : QueryResult :=
  ⟨[⟨"v", .dtInteger, false⟩], [⟨[.integer 3]⟩, ⟨[.integer 1]⟩], none, 0⟩

/-- Witness for C6 at a concrete two-row result. -/
theorem apply_sort_sorts_witness :
    ((⟨[⟨"v", .ascending⟩]⟩ : OrderBy).columns = ⟨"v", .ascending⟩ :: []) ∧
    (sortWitnessResult.columns.findIdx?
      (fun col => col.name == ("v" : String)) = some 0) ∧
    SortedOutput sortWitnessResult ⟨[⟨"v", .ascending⟩]⟩ ⟨"v", .ascending⟩ 0 :=
  ⟨rfl, rfl, apply_sort_sorts sortWitnessResult ⟨[⟨"v", .ascending⟩]⟩
    ⟨"v", .ascending⟩ [] rfl 0 rfl⟩

/-- Resolution behaviour of a table scan: the three probe names are tried
in order, the first hit is delegated to, no hit is an internal error, and a
name synthesized with ordinal 1 or more is none of the probes. -/
def ScanResolution (reg : List (String × Connector)) (source : DataSource)
    (projections : List Column) (predicates : List Predicate) : Prop :=
  (∀ c, lookupKey reg source.object_type = some c →
    execute_table_scan (some reg) source projections predicates
      = c.execute_query
          ⟨c.connector_type, scan_query source projections predicates, []⟩) ∧
  (∀ c, lookupKey reg source.object_type = none →
    lookupKey reg (source.object_type ++ "_0") = some c →
    execute_table_scan (some reg) source projections predicates
      = c.execute_query
          ⟨c.connector_type, scan_query source projections predicates, []⟩) ∧
  (∀ c, lookupKey reg source.object_type = none →
    lookupKey reg (source.object_type ++ "_0") = none →
    lookupKey reg (source.object_type ++ "_connector") = some c →
    execute_table_scan (some reg) source projections predicates
      = c.execute_query
          ⟨c.connector_type, scan_query source projections predicates, []⟩) ∧
  (lookupKey reg source.object_type = none →
    lookupKey reg (source.object_type ++ "_0") = none →
    lookupKey reg (source.object_type ++ "_connector") = none →
    execute_table_scan (some reg) source projections predicates
      = .error (.internal
          ("No connector found for type: " ++ source.object_type))) ∧
  (∀ k : Nat, 1 ≤ k →
    synthName source.object_type k ∉ possible_names source.object_type)

/-- C7: `execute_table_scan` resolves the connector by probing exactly the
literal object type, the type with a "_0" suffix and the type with a
"_connector" suffix, in that order, delegating to the first hit and failing
with an internal connector-not-found error otherwise; a dispatcher name
synthesized with ordinal 1 or more matches none of the probes, so a second
or later registration is never found. -/
theorem execute_table_scan_probes (reg : List (String × Connector))
    (source : DataSource) (projections : List Column)
    (predicates : List Predicate) :
    ScanResolution reg source projections predicates := by
  refine ⟨fun c h1 => ?_, fun c h1 h2 => ?_, fun c h1 h2 h3 => ?_,
    fun h1 h2 h3 => ?_, fun k hk => ?_⟩
  · simp [execute_table_scan, find_connector, possible_names, h1]
  · simp [execute_table_scan, find_connector, possible_names, h1, h2]
  · simp [execute_table_scan, find_connector, possible_names, h1, h2, h3]
  · simp [execute_table_scan, find_connector, possible_names, h1, h2, h3]
  · intro hmem
    simp only [possible_names, List.mem_cons, List.not_mem_nil, or_false] at hmem
    rcases hmem with h | h | h
    · exact synthName_ne_base source.object_type k h
    · exact synthName_ne_zero_probe source.object_type (by omega) h
    · exact synthName_ne_connector_probe source.object_type k h

/-- Witness for C7: a connector stored under the ordinal-1 name is invisible
to the scan, which errors. -/
theorem execute_table_scan_probes_witness :
    (lookupKey [(synthName "t" 1, mockConnector)] "t" = none) ∧
    (lookupKey [(synthName "t" 1, mockConnector)] ("t" ++ "_0") = none) ∧
    (lookupKey [(synthName "t" 1, mockConnector)] ("t" ++ "_connector") = none) ∧
    execute_table_scan (some [(synthName "t" 1, mockConnector)])
      ⟨"t", "x", none⟩ [] []
      = .error (.internal ("No connector found for type: " ++ "t")) :=
  ⟨rfl, rfl, rfl,
   (execute_table_scan_probes [(synthName "t" 1, mockConnector)]
     ⟨"t", "x", none⟩ [] []).2.2.2.1 rfl rfl rfl⟩

end Nirv

namespace Nirv

/-! Parser source extraction (src/engine/query_parser.rs): claim C8.  The
SQL text is turned into a table factor by the external sqlparser crate;
the repository's own logic starts at `extract_source_from_table`, which is
embedded here over the factor shapes that crate produces (`FROM foo` is a
`Table` factor without arguments; `FROM source('spec')` is a `Table`
factor named "source" carrying one single-quoted string argument). -/

/-- sqlparser `Value`, restricted to the shapes this code distinguishes. -/
inductive SqlValueAst
  | singleQuotedString (s : String)
  | otherValue

/-- sqlparser `Expr`, restricted to the shapes this code distinguishes. -/
inductive SqlExprAst
  | valueExpr (v : SqlValueAst)
  | otherExpr

/-- sqlparser `FunctionArgExpr`, restricted. -/
inductive FunctionArgExprAst
  | expr (e : SqlExprAst)
  | otherArgExpr

/-- sqlparser `FunctionArg`, restricted. -/
inductive FunctionArgAst
  | unnamed (e : FunctionArgExprAst)
  | named

/-- sqlparser `TableFactor`, restricted to the four arms the code matches. -/
inductive TableFactorAst
  | table (name : String) («alias» : Option String)
      (args : Option (List FunctionArgAst))
  | derived («alias» : Option String)
  | functionFactor (name : String) (args : List FunctionArgAst)
      («alias» : Option String)
  | otherFactor

/-- Per-character lowercasing of a string, embedding `str::to_lowercase`
as the code uses it (distinguishing the ASCII name "source"). -/
def strToLower (s : String) : String :=
  ⟨s.data.map Char.toLower⟩

/-- A single-quoted string literal argument of `source(...)`. -/
def singleQuotedArg (s : String) : FunctionArgAst :=
  .unnamed (.expr (.valueExpr (.singleQuotedString s)))

/-- Split a character list at its first dot (`str::find` plus slicing). -/
def splitAtFirstDot : List Char → Option (List Char × List Char)
  | [] => none
  | c :: rest =>
      if c = '.' then some ([], rest)
      else
        match splitAtFirstDot rest with
        | some (a, b) => some (c :: a, b)
        | none => none

/-- The object-type/identifier split of a source spec: the text before the
first dot and the remainder, or the default object type "table" with the
whole spec as identifier when there is no dot. -/
def split_source_spec (spec : String) : String × String :=
  match splitAtFirstDot spec.data with
  | some (a, b) => (⟨a⟩, ⟨b⟩)
  | none => ("table", spec)

/-- `DefaultQueryParser::extract_source_from_function_args`. -/
def extract_source_from_function_args (args : List FunctionArgAst) :
    Except NirvError (String × String) :=
  match args with
  | [arg] =>
      match arg with
      | .unnamed (.expr (.valueExpr (.singleQuotedString spec))) =>
          .ok (split_source_spec spec)
      | _ => .error (.queryParsing (.invalidSourceFormat
          "source() function argument must be a string literal"))
  | _ => .error (.queryParsing (.invalidSourceFormat
      "source() function requires exactly one argument"))

/-- `DefaultQueryParser::extract_source_from_table`. -/
def extract_source_from_table : TableFactorAst → Except NirvError DataSource
  | .table name al args =>
      match args with
      | some as1 =>
          if strToLower name = "source" then
            match extract_source_from_function_args as1 with
            | .error e => .error e
            | .ok ti => .ok ⟨ti.1, ti.2, al⟩
          else .ok ⟨"table", name, al⟩
      | none => .ok ⟨"table", name, al⟩
  | .derived al => .ok ⟨"subquery", "derived", al⟩
  | .functionFactor name args al =>
      if strToLower name = "source" then
        match extract_source_from_function_args args with
        | .error e => .error e
        | .ok ti => .ok ⟨ti.1, ti.2, al⟩
      else .error (.queryParsing (.unsupportedFeature
        ("Function " ++ name ++ " not supported in FROM clause")))
  | .otherFactor => .error (.queryParsing (.unsupportedFeature
      "Unsupported table reference type"))

theorem splitAtFirstDot_none : ∀ l : List Char, '.' ∉ l →
    splitAtFirstDot l = none := by
  intro l
  induction l with
  | nil => intro _; rfl
  | cons c rest ih =>
    intro h
    have hc : ¬ c = '.' := fun he => h (by simp [he])
    simp [splitAtFirstDot, hc, ih (fun hm => h (by simp [hm]))]

theorem splitAtFirstDot_append : ∀ l r : List Char, '.' ∉ l →
    splitAtFirstDot (l ++ '.' :: r) = some (l, r) := by
  intro l
  induction l with
  | nil => intro r _; simp [splitAtFirstDot]
  | cons c rest ih =>
    intro r h
    have hc : ¬ c = '.' := fun he => h (by simp [he])
    simp [splitAtFirstDot, hc, ih r (fun hm => h (by simp [hm]))]

theorem split_source_spec_no_dot (s : String) (h : '.' ∉ s.data) :
    split_source_spec s = ("table", s) := by
  simp [split_source_spec, splitAtFirstDot_none s.data h]

theorem split_source_spec_dot (t r : String) (h : '.' ∉ t.data) :
    split_source_spec (t ++ "." ++ r) = (t, r) := by
  have hd : (t ++ "." ++ r).data = t.data ++ '.' :: r.data := by
    rw [String.data_append, String.data_append, List.append_assoc]
    rfl
  simp only [split_source_spec, hd, splitAtFirstDot_append t.data r.data h]

/-- C8: `FROM foo` and `FROM source('table.foo')` extract the same single
source — object type "table", identifier "foo"; in general a dot-free
source spec defaults the object type to "table", and a spec with a dot
splits at its first dot into object type and identifier. -/
theorem source_addressing_equivalence :
    (extract_source_from_table (.table "foo" none none)
      = .ok ⟨"table", "foo", none⟩) ∧
    (extract_source_from_table
        (.table "source" none (some [singleQuotedArg "table.foo"]))
      = .ok ⟨"table", "foo", none⟩) ∧
    (extract_source_from_table (.table "foo" none none)
      = extract_source_from_table
          (.table "source" none (some [singleQuotedArg "table.foo"]))) ∧
    (∀ s : String, '.' ∉ s.data →
      extract_source_from_function_args [singleQuotedArg s]
        = .ok ("table", s)) ∧
    (∀ t r : String, '.' ∉ t.data →
      extract_source_from_function_args [singleQuotedArg (t ++ "." ++ r)]
        = .ok (t, r)) := by
  refine ⟨rfl, rfl, rfl, fun s h => ?_, fun t r h => ?_⟩
  · simp [extract_source_from_function_args, singleQuotedArg,
      split_source_spec_no_dot s h]
  · simp [extract_source_from_function_args, singleQuotedArg,
      split_source_spec_dot t r h]

/-- Witness for C8 at concrete dot-free and dotted specs. -/
theorem source_addressing_equivalence_witness :
    ('.' ∉ "users".data) ∧
    (extract_source_from_function_args [singleQuotedArg "users"]
      = .ok ("table", "users")) ∧
    ('.' ∉ "file".data) ∧
    (extract_source_from_function_args
        [singleQuotedArg ("file" ++ "." ++ "data.csv")]
      = .ok ("file", "data.csv")) :=
  ⟨by decide,
   source_addressing_equivalence.2.2.2.1 "users" (by decide),
   by decide,
   source_addressing_equivalence.2.2.2.2 "file" "data.csv" (by decide)⟩

end Nirv
